import Mathlib

/-
  Verification development for the C44Matrix Nuke plugin
  (src/src/C44Matrix.cpp and src/src/16.1+/C44Matrix.cpp).

  The plugin resolves a 4x4 homogeneous matrix — either entered manually or
  extracted from a connected Camera/Axis provider — conditions it
  (optional transpose, optional inverse, in that order), and applies it to
  every pixel of a scanline, treating (R,G,B,A) as a homogeneous 4-vector
  with an optional perspective (w) divide.

  The embedding is polymorphic in the scalar type `α` so that structural
  claims can be stated over `Float` (the carrier of the C++ code) and
  value-level claims can be evaluated over `ℚ`, where the arithmetic of the
  concrete test vectors is exact.

  The DD::Image::Matrix4 / Vector4 primitives are external library code not
  present in the repository; their operations used by the plugin are
  modelled from the spec (sections 3 and 4.1), which fixes them as a
  row-major 4x4 with matrix-times-column-vector transform.
-/

namespace C44

/-- Modelled from the spec: DD::Image::Vector4, a 4-component vector
(x,y,z,w); in the pixel kernel it carries the (R,G,B,A) quadruple. -/
structure Vector4 (α : Type) where
  x : α
  y : α
  z : α
  w : α
deriving DecidableEq, Repr

/-- Modelled from the spec: DD::Image::Matrix4, sixteen scalars forming a
logically row-major 4x4 matrix (spec section 3, Matrix4). -/
structure Matrix4 (α : Type) where
  row0 : Vector4 α
  row1 : Vector4 α
  row2 : Vector4 α
  row3 : Vector4 α
deriving DecidableEq, Repr

namespace Matrix4

variable {α : Type}

/-- Modelled from the spec: Matrix4::makeIdentity(). -/
def identity [OfNat α 0] [OfNat α 1] : Matrix4 α :=
  { row0 := ⟨1, 0, 0, 0⟩
    row1 := ⟨0, 1, 0, 0⟩
    row2 := ⟨0, 0, 1, 0⟩
    row3 := ⟨0, 0, 0, 1⟩ }

/-- Modelled from the spec: the Matrix4(const float*) constructor, reading
sixteen scalars in row-major order (spec: "manualArray reinterpreted as a
4x4 (16 values, row-major)"). -/
def ofArray (v : Fin 16 → α) : Matrix4 α :=
  { row0 := ⟨v 0, v 1, v 2, v 3⟩
    row1 := ⟨v 4, v 5, v 6, v 7⟩
    row2 := ⟨v 8, v 9, v 10, v 11⟩
    row3 := ⟨v 12, v 13, v 14, v 15⟩ }

/-- Modelled from the spec: Matrix4::array(), the flat 16-scalar view of the
matrix in the same row-major order the constructor reads. -/
def toArray (m : Matrix4 α) : List α :=
  [m.row0.x, m.row0.y, m.row0.z, m.row0.w,
   m.row1.x, m.row1.y, m.row1.z, m.row1.w,
   m.row2.x, m.row2.y, m.row2.z, m.row2.w,
   m.row3.x, m.row3.y, m.row3.z, m.row3.w]

/-- Modelled from the spec: Matrix4::transpose() — swap off-diagonal pairs. -/
def transposeM (m : Matrix4 α) : Matrix4 α :=
  { row0 := ⟨m.row0.x, m.row1.x, m.row2.x, m.row3.x⟩
    row1 := ⟨m.row0.y, m.row1.y, m.row2.y, m.row3.y⟩
    row2 := ⟨m.row0.z, m.row1.z, m.row2.z, m.row3.z⟩
    row3 := ⟨m.row0.w, m.row1.w, m.row2.w, m.row3.w⟩ }

/-- Modelled from the spec: Matrix4::transform(vec4), the
matrix-times-column-vector product applied consistently throughout. -/
def transform [Add α] [Mul α] (m : Matrix4 α) (v : Vector4 α) : Vector4 α :=
  { x := m.row0.x * v.x + m.row0.y * v.y + m.row0.z * v.z + m.row0.w * v.w
    y := m.row1.x * v.x + m.row1.y * v.y + m.row1.z * v.z + m.row1.w * v.w
    z := m.row2.x * v.x + m.row2.y * v.y + m.row2.z * v.z + m.row2.w * v.w
    w := m.row3.x * v.x + m.row3.y * v.y + m.row3.z * v.z + m.row3.w * v.w }

/-- Determinant of a 3x3 block, cofactor helper for the 4x4 inverse. -/
def det3 [Add α] [Mul α] [Sub α]
    (a b c d e f g h i : α) : α :=
  a * (e * i - f * h) - b * (d * i - f * g) + c * (d * h - e * g)

/-- Modelled from the spec: Matrix4::inverse() — best-effort
adjugate-over-determinant inverse; when the matrix is singular the result
is whatever the scalar division yields, no error is signaled. -/
def inverse [Add α] [Mul α] [Sub α] [Neg α] [Div α] (m : Matrix4 α) : Matrix4 α :=
  let a := m.row0.x; let b := m.row0.y; let c := m.row0.z; let d := m.row0.w
  let e := m.row1.x; let f := m.row1.y; let g := m.row1.z; let h := m.row1.w
  let i := m.row2.x; let j := m.row2.y; let k := m.row2.z; let l := m.row2.w
  let mm := m.row3.x; let n := m.row3.y; let o := m.row3.z; let p := m.row3.w
  let c00 := det3 f g h j k l n o p
  let c01 := det3 e g h i k l mm o p
  let c02 := det3 e f h i j l mm n p
  let c03 := det3 e f g i j k mm n o
  let c10 := det3 b c d j k l n o p
  let c11 := det3 a c d i k l mm o p
  let c12 := det3 a b d i j l mm n p
  let c13 := det3 a b c i j k mm n o
  let c20 := det3 b c d f g h n o p
  let c21 := det3 a c d e g h mm o p
  let c22 := det3 a b d e f h mm n p
  let c23 := det3 a b c e f g mm n o
  let c30 := det3 b c d f g h j k l
  let c31 := det3 a c d e g h i k l
  let c32 := det3 a b d e f h i j l
  let c33 := det3 a b c e f g i j k
  let det := a * c00 - b * c01 + c * c02 - d * c03
  { row0 := ⟨c00 / det, -c10 / det, c20 / det, -c30 / det⟩
    row1 := ⟨-c01 / det, c11 / det, -c21 / det, c31 / det⟩
    row2 := ⟨c02 / det, -c12 / det, c22 / det, -c32 / det⟩
    row3 := ⟨-c03 / det, c13 / det, -c23 / det, c33 / det⟩ }

/-- Modelled from the spec: Matrix4::translationOnly() — keeps the
translation component (fourth column under the column-vector convention)
and replaces the linear 3x3 block by the identity. -/
def translationOnly [OfNat α 0] [OfNat α 1] (m : Matrix4 α) : Matrix4 α :=
  { row0 := ⟨1, 0, 0, m.row0.w⟩
    row1 := ⟨0, 1, 0, m.row1.w⟩
    row2 := ⟨0, 0, 1, m.row2.w⟩
    row3 := ⟨0, 0, 0, 1⟩ }

/-- Length of a basis column of the linear 3x3 block; `sq` is the square
root supplied by the numeric environment (external in the C++ library). -/
def colNorm [Add α] [Mul α] (sq : α → α) (x y z : α) : α :=
  sq (x * x + y * y + z * z)

/-- Modelled from the spec: Matrix4::rotationOnly() — strips translation and
the scale factors embedded in the basis vectors (normalizing each basis
column by its length) while preserving orientation. -/
def rotationOnly [Add α] [Mul α] [Div α] [OfNat α 0] [OfNat α 1]
    (sq : α → α) (m : Matrix4 α) : Matrix4 α :=
  let sx := colNorm sq m.row0.x m.row1.x m.row2.x
  let sy := colNorm sq m.row0.y m.row1.y m.row2.y
  let sz := colNorm sq m.row0.z m.row1.z m.row2.z
  { row0 := ⟨m.row0.x / sx, m.row0.y / sy, m.row0.z / sz, 0⟩
    row1 := ⟨m.row1.x / sx, m.row1.y / sy, m.row1.z / sz, 0⟩
    row2 := ⟨m.row2.x / sx, m.row2.y / sy, m.row2.z / sz, 0⟩
    row3 := ⟨0, 0, 0, 1⟩ }

/-- Modelled from the spec: Matrix4::scaleOnly() — keeps only the scale
factors (basis-column lengths) of a full transform, as a diagonal matrix. -/
def scaleOnly [Add α] [Mul α] [OfNat α 0] [OfNat α 1]
    (sq : α → α) (m : Matrix4 α) : Matrix4 α :=
  { row0 := ⟨colNorm sq m.row0.x m.row1.x m.row2.x, 0, 0, 0⟩
    row1 := ⟨0, colNorm sq m.row0.y m.row1.y m.row2.y, 0, 0⟩
    row2 := ⟨0, 0, colNorm sq m.row0.z m.row1.z m.row2.z, 0⟩
    row3 := ⟨0, 0, 0, 1⟩ }

end Matrix4

/-- Host image format descriptor, only threaded through to the external
format-fit computation (spec section 6). -/
structure Format where
  width : Nat
  height : Nat
deriving DecidableEq, Repr

/-- State of a connected CameraOp, as read by the plugin after forcing the
provider to re-validate: a world transform, a projection matrix, and the
externally computed format-fit matrix (CameraOp::ToFormat /
CameraOp::to_format, external library code modelled as provider data). -/
structure CameraOpState (α : Type) where
  world : Matrix4 α
  projection : Matrix4 α
  toFormat : Format → Matrix4 α

/-- State of a connected AxisOp: only a world transform. -/
structure AxisOpState (α : Type) where
  world : Matrix4 α

/-- The op connected at input 1, as discriminated by the two dynamic_casts
in the plugin: a CameraOp, an AxisOp, some other op, or no op at all. -/
inductive InputOp (α : Type)
  | none
  | camera (c : CameraOpState α)
  | axis (a : AxisOpState α)
  | other

/-- Embeds getCameraMatrix (src/src/16.1+/C44Matrix.cpp, lines 62-95):
dispatch on the matrixType option; mtx starts as identity and the double
world/projection matrices are narrowed to single precision (the narrowing
is the identity map here because the embedding uses one scalar type).
The legacy file inlines the same switch in provideValues (lines 117-144). -/
def getCameraMatrix [Add α] [Mul α] [Div α] [OfNat α 0] [OfNat α 1]
    (sq : α → α) (cam : CameraOpState α) (option : Int) (fmt : Format) :
    Matrix4 α :=
  match option with
  | 0 => cam.world
  | 1 => (cam.world).translationOnly
  | 2 => (cam.world).rotationOnly sq
  | 3 => (cam.world).scaleOnly sq
  | 4 => cam.projection
  | 5 => cam.toFormat fmt
  | _ => Matrix4.identity

/-- Embeds getAxisMatrix (src/src/16.1+/C44Matrix.cpp, lines 100-127):
projection and format are not applicable to an Axis, so cases 4 and 5
leave the identity-initialized mtx unchanged. The legacy file inlines the
same switch in provideValues (lines 145-174). -/
def getAxisMatrix [Add α] [Mul α] [Div α] [OfNat α 0] [OfNat α 1]
    (sq : α → α) (axis : AxisOpState α) (option : Int) : Matrix4 α :=
  match option with
  | 0 => axis.world
  | 1 => (axis.world).translationOnly
  | 2 => (axis.world).rotationOnly sq
  | 3 => (axis.world).scaleOnly sq
  | _ => Matrix4.identity

/-- Evaluation-context-dependent node state visible to the ValueProvider
bridge: the `matrixFrom` and `matrixType` enumeration knobs (read with
get_value_at at a caller-supplied OutputContext `Ctx`, or with get_value()
at the node's current context), the op connected at input 1, and the
host's input format. -/
structure C44State (α : Type) (Ctx : Type) where
  matrixFrom : Ctx → Int
  matrixType : Ctx → Int
  currentCtx : Ctx
  input1 : InputOp α
  inputFormat : Format

/-- Embeds C44Matrix::_getInputMatrix (src/src/16.1+/C44Matrix.cpp, lines
142-163): cam_mtx starts as identity; dynamic_cast discriminates the input
op; a CameraOp or AxisOp is re-validated and its matrix extracted at the
matrixType option read at the given context; anything else leaves identity. -/
def getInputMatrix [Add α] [Mul α] [Div α] [OfNat α 0] [OfNat α 1]
    (sq : α → α) (s : C44State α Ctx) (oc : Ctx) : Matrix4 α :=
  let option := s.matrixType oc
  match s.input1 with
  | .camera cam => getCameraMatrix sq cam option s.inputFormat
  | .axis axis => getAxisMatrix sq axis option
  | _ => Matrix4.identity

/-- Embeds the vector-returning C44Matrix::provideValues overload
(src/src/16.1+/C44Matrix.cpp, lines 206-221): a 16-entry vector; cam_mtx is
identity unless the matrixFrom knob reads 1 at the query context, in which
case it is the provider-derived matrix; the 16 scalars of cam_mtx.array()
are copied out in order (widening float to double is the identity map
here). -/
def provideValuesVec [Add α] [Mul α] [Div α] [OfNat α 0] [OfNat α 1]
    (sq : α → α) (s : C44State α Ctx) (oc : Ctx) : List α :=
  let cam_mtx :=
    if s.matrixFrom oc = 1 then getInputMatrix sq s oc else Matrix4.identity
  cam_mtx.toArray

/-- The copy loop of the buffer-based provideValues overload:
`for i in [start, start+k): values[i] = src[i]`. -/
def copyLoop (src : Nat → α) : Nat → Nat → (Nat → α) → (Nat → α)
  | 0, _, values => values
  | k + 1, i, values =>
      copyLoop src k (i + 1) (Function.update values i (src i))

/-- Embeds the buffer-writing C44Matrix::provideValues overload
(src/src/16.1+/C44Matrix.cpp, lines 226-240): the same cam_mtx computation,
then exactly min(nValues, 16) entries of cam_mtx.array() are written into
the caller's buffer; the buffer is a total map from indices to scalars and
the entries beyond the written span keep their previous contents. -/
def provideValuesBuf [Add α] [Mul α] [Div α] [OfNat α 0] [OfNat α 1]
    (sq : α → α) (s : C44State α Ctx) (oc : Ctx)
    (values : Nat → α) (nValues : Nat) : Nat → α :=
  let cam_mtx :=
    if s.matrixFrom oc = 1 then getInputMatrix sq s oc else Matrix4.identity
  let count := min nValues 16
  copyLoop (fun i => (cam_mtx.toArray).getD i 0) count 0 values

/-- Embeds C44Matrix::provideValuesEnabled (both source files): true
exactly when the matrixFrom knob's get_value() — its value at the node's
current context — is 1. -/
def provideValuesEnabled (s : C44State α Ctx) : Bool :=
  s.matrixFrom s.currentCtx == 1

/-- Embeds the legacy C44Matrix::provideValues
(src/src/C44Matrix.cpp, lines 107-184): cam_mtx starts as identity; when
the matrixFrom knob reads 1 at the query context, the input op is
discriminated by dynamic_cast and the matrixType switch is inlined per
provider kind (camera: cases 4/5 read projection and to_format; axis:
cases 4/5 leave identity); the 16 scalars are then pushed into the result
vector in order. -/
def provideValuesLegacy [Add α] [Mul α] [Div α] [OfNat α 0] [OfNat α 1]
    (sq : α → α) (s : C44State α Ctx) (oc : Ctx) : List α :=
  let cam_mtx :=
    if s.matrixFrom oc = 1 then
      match s.input1 with
      | .camera cam =>
          (match s.matrixType oc with
           | 0 => cam.world
           | 1 => (cam.world).translationOnly
           | 2 => (cam.world).rotationOnly sq
           | 3 => (cam.world).scaleOnly sq
           | 4 => cam.projection
           | 5 => cam.toFormat s.inputFormat
           | _ => Matrix4.identity)
      | .axis axis =>
          (match s.matrixType oc with
           | 0 => axis.world
           | 1 => (axis.world).translationOnly
           | 2 => (axis.world).rotationOnly sq
           | 3 => (axis.world).scaleOnly sq
           | _ => Matrix4.identity)
      | _ => Matrix4.identity
    else Matrix4.identity
  cam_mtx.toArray

/-- The conditioning step shared by both _validate implementations: if the
transpose flag is set the base matrix is transposed, then if the invert
flag is set it is replaced by its inverse. -/
def conditionMatrix [Add α] [Mul α] [Sub α] [Neg α] [Div α]
    (m : Matrix4 α) (transposeFlag invertFlag : Bool) : Matrix4 α :=
  let m1 := if transposeFlag then m.transposeM else m
  if invertFlag then m1.inverse else m1

/-- Embeds the matrix computation of C44Matrix::_validate
(src/src/C44Matrix.cpp lines 187-203 and src/src/16.1+/C44Matrix.cpp lines
300-315): array_mtx = Matrix4(_arrayKnob.array), then transpose if
_transpose, then inverse if _invert. The channel bookkeeping of _validate
has no effect on the matrix and is not modelled. -/
def validateMatrix [Add α] [Mul α] [Sub α] [Neg α] [Div α]
    (arr : Fin 16 → α) (transposeFlag invertFlag : Bool) : Matrix4 α :=
  conditionMatrix (Matrix4.ofArray arr) transposeFlag invertFlag

/-- Division of a Vector4 by a scalar (DD::Image::Vector4 operator/=):
all four components are divided, the w component included. -/
def Vector4.divByW [Div α] (v : Vector4 α) : Vector4 α :=
  ⟨v.x / v.w, v.y / v.w, v.z / v.w, v.w / v.w⟩

/-- The per-pixel body of C44Matrix::pixel_engine: transform the (R,G,B,A)
sample by the effective matrix, then divide by w when the w_divide knob is
set; there is no branch guarding against a zero w. -/
def kernelPixel [Add α] [Mul α] [Div α]
    (m : Matrix4 α) (wdiv : Bool) (sc : Vector4 α) : Vector4 α :=
  let pw := m.transform sc
  if wdiv then pw.divByW else pw

/-- The scanline loop of pixel_engine: for X from the left edge, n pixels
are processed, each output slot X receiving the kernel of input sample X. -/
def engineLoop [Add α] [Mul α] [Div α]
    (m : Matrix4 α) (wdiv : Bool) (inRow : Int → Vector4 α) :
    Nat → Int → (Int → Vector4 α) → (Int → Vector4 α)
  | 0, _, out => out
  | n + 1, X, out =>
      engineLoop m wdiv inRow n (X + 1)
        (Function.update out X (kernelPixel m wdiv (inRow X)))

/-- Embeds C44Matrix::pixel_engine (src/src/C44Matrix.cpp lines 219-254 and
src/src/16.1+/C44Matrix.cpp lines 328-356): if the host signalled an abort
the row is left untouched; otherwise every pixel index in [x, r) is
written with the transformed (and optionally w-divided) input sample at
the same index. The input row is the quadruple of R,G,B,A channels at each
index; the output row is the prior contents of the writable channels. -/
def pixel_engine [Add α] [Mul α] [Div α]
    (abortedFlag : Bool) (m : Matrix4 α) (wdiv : Bool)
    (inRow : Int → Vector4 α) (x r : Int) (out : Int → Vector4 α) :
    Int → Vector4 α :=
  if abortedFlag then out
  else engineLoop m wdiv inRow (r - x).toNat x out

/-- The spec's own wording for the manual base matrix: the sixteen raw
input values reshaped as a 4x4 row-major matrix, entry (i,j) being input
value number 4*i + j. Stated independently of the source-derived
Matrix4.ofArray so the two can be compared. -/
def reshapeRowMajorSpec (v : Fin 16 → α) : Matrix4 α :=
  let entry : Fin 4 → Fin 4 → α := fun i j =>
    v ⟨4 * i.val + j.val, by have hi := i.isLt; have hj := j.isLt; omega⟩
  { row0 := ⟨entry 0 0, entry 0 1, entry 0 2, entry 0 3⟩
    row1 := ⟨entry 1 0, entry 1 1, entry 1 2, entry 1 3⟩
    row2 := ⟨entry 2 0, entry 2 1, entry 2 2, entry 2 3⟩
    row3 := ⟨entry 3 0, entry 3 1, entry 3 2, entry 3 3⟩ }

theorem engineLoop_untouched {α : Type} [Add α] [Mul α] [Div α]
    (m : Matrix4 α) (wdiv : Bool)
    (inRow : Int → Vector4 α) :
    ∀ (n : Nat) (X0 : Int) (out : Int → Vector4 α) (X : Int),
      (X < X0 ∨ X0 + n ≤ X) →
      engineLoop m wdiv inRow n X0 out X = out X := by
  intro n
  induction n with
  | zero => intro X0 out X h; rfl
  | succ n ih =>
    intro X0 out X h
    show engineLoop m wdiv inRow n (X0 + 1)
      (Function.update out X0 (kernelPixel m wdiv (inRow X0))) X = out X
    rw [ih (X0 + 1) _ X (by omega)]
    exact Function.update_noteq (by omega) _ _

theorem engineLoop_written {α : Type} [Add α] [Mul α] [Div α]
    (m : Matrix4 α) (wdiv : Bool)
    (inRow : Int → Vector4 α) :
    ∀ (n : Nat) (X0 : Int) (out : Int → Vector4 α) (X : Int),
      X0 ≤ X → X < X0 + n →
      engineLoop m wdiv inRow n X0 out X = kernelPixel m wdiv (inRow X) := by
  intro n
  induction n with
  | zero => intro X0 out X h1 h2; omega
  | succ n ih =>
    intro X0 out X h1 h2
    show engineLoop m wdiv inRow n (X0 + 1)
      (Function.update out X0 (kernelPixel m wdiv (inRow X0))) X = _
    by_cases hX : X = X0
    · subst hX
      rw [engineLoop_untouched m wdiv inRow n (X + 1) _ X (by omega)]
      exact Function.update_same _ _ _
    · exact ih (X0 + 1) _ X (by omega) (by omega)

theorem copyLoop_untouched {α : Type} (src : Nat → α) :
    ∀ (k i0 : Nat) (values : Nat → α) (i : Nat),
      (i < i0 ∨ i0 + k ≤ i) →
      copyLoop src k i0 values i = values i := by
  intro k
  induction k with
  | zero => intro i0 values i h; rfl
  | succ k ih =>
    intro i0 values i h
    show copyLoop src k (i0 + 1) (Function.update values i0 (src i0)) i
      = values i
    rw [ih (i0 + 1) _ i (by omega)]
    exact Function.update_noteq (by omega) _ _

theorem copyLoop_written {α : Type} (src : Nat → α) :
    ∀ (k i0 : Nat) (values : Nat → α) (i : Nat),
      i0 ≤ i → i < i0 + k →
      copyLoop src k i0 values i = src i := by
  intro k
  induction k with
  | zero => intro i0 values i h1 h2; omega
  | succ k ih =>
    intro i0 values i h1 h2
    show copyLoop src k (i0 + 1) (Function.update values i0 (src i0)) i
      = src i
    by_cases hi : i = i0
    · subst hi
      rw [copyLoop_untouched src k (i + 1) _ i (by omega)]
      exact Function.update_same _ _ _
    · exact ih (i0 + 1) _ i (by omega) (by omega)

/-- C1: in MatrixResolver's conditioning of the base matrix, transpose is
applied before invert — with both flags the effective matrix is
inverse(transpose(M)); with one flag only that operation is applied; with
neither the base matrix is unchanged; and _validate's matrix is the
conditioning applied to the knob array reshaped as a matrix. -/
theorem conditioning_transpose_before_invert
    {α : Type} [Add α] [Mul α] [Sub α] [Neg α] [Div α]
    (M : Matrix4 α) (arr : Fin 16 → α) :
    conditionMatrix M true true = (M.transposeM).inverse
    ∧ conditionMatrix M true false = M.transposeM
    ∧ conditionMatrix M false true = M.inverse
    ∧ conditionMatrix M false false = M
    ∧ validateMatrix arr true true
        = ((Matrix4.ofArray arr).transposeM).inverse :=
  ⟨rfl, rfl, rfl, rfl, rfl⟩

/-- C2: with both conditioning flags false, the matrix computed by
_validate is exactly the sixteen manual input values reshaped as a 4x4
row-major matrix, unchanged. -/
theorem manual_matrix_unchanged {α : Type}
    [Add α] [Mul α] [Sub α] [Neg α] [Div α] (arr : Fin 16 → α) :
    validateMatrix arr false false = reshapeRowMajorSpec arr := rfl

/-- C3: extraction with the Projection option (ordinal 4) returns the
camera's projection matrix unmodified, and returns the identity for an
Axis provider regardless of its world transform; the legacy provideValues,
queried in provider mode with matrixType 4, reports exactly those
matrices. -/
theorem projection_extraction {α Ctx : Type}
    [Add α] [Mul α] [Div α] [OfNat α 0] [OfNat α 1]
    (sq : α → α) (cam : CameraOpState α) (fmt : Format)
    (axis : AxisOpState α) (oc c0 : Ctx) :
    getCameraMatrix sq cam 4 fmt = cam.projection
    ∧ getAxisMatrix sq axis 4 = Matrix4.identity
    ∧ provideValuesLegacy sq ⟨fun _ => 1, fun _ => 4, c0, .camera cam, fmt⟩ oc
        = (cam.projection).toArray
    ∧ provideValuesLegacy sq ⟨fun _ => 1, fun _ => 4, c0, .axis axis, fmt⟩ oc
        = (Matrix4.identity (α := α)).toArray :=
  ⟨rfl, rfl, rfl, rfl⟩

/-- C4: when no provider is connected, or the connected op is neither a
CameraOp nor an AxisOp, the extracted input matrix is the identity and the
live-value queries return the identity's sixteen values: the extraction
returns normally, no error path exists. -/
theorem invalid_provider_yields_identity {α Ctx : Type}
    [Add α] [Mul α] [Div α] [OfNat α 0] [OfNat α 1]
    (sq : α → α) (s : C44State α Ctx) (oc : Ctx)
    (h : s.input1 = InputOp.none ∨ s.input1 = InputOp.other) :
    getInputMatrix sq s oc = Matrix4.identity
    ∧ provideValuesVec sq s oc = (Matrix4.identity (α := α)).toArray
    ∧ provideValuesLegacy sq s oc = (Matrix4.identity (α := α)).toArray := by
  rcases h with h | h <;>
    exact ⟨by simp [getInputMatrix, h],
           by simp [provideValuesVec, getInputMatrix, h],
           by simp [provideValuesLegacy, h]⟩

/-- Input state with nothing connected at input 1, exercising the
invalid-provider path of claim C4. -/
def disconnectedState : C44State ℚ Unit :=
  { matrixFrom := fun _ => 1
    matrixType := fun _ => 0
    currentCtx := ()
    input1 := InputOp.none
    inputFormat := ⟨1920, 1080⟩ }

/-- Witness for C4 at a concrete disconnected state. -/
theorem invalid_provider_yields_identity_witness :
    getInputMatrix (fun q => q) disconnectedState () = Matrix4.identity
    ∧ provideValuesVec (fun q => q) disconnectedState ()
        = (Matrix4.identity (α := ℚ)).toArray
    ∧ provideValuesLegacy (fun q => q) disconnectedState ()
        = (Matrix4.identity (α := ℚ)).toArray :=
  invalid_provider_yields_identity (fun q => q) disconnectedState ()
    (Or.inl rfl)

/-- C5: with the w_divide knob set, the pixel kernel divides all four
transformed components by the transformed w component; in particular any
matrix sending (1,1,1,1) to (1,1,1,2) produces the output pixel
(1/2, 1/2, 1/2, 1). Stated over the rationals, where the claim's concrete
arithmetic is exact. -/
theorem kernel_perspective_divide :
    (∀ (m : Matrix4 ℚ) (p : Vector4 ℚ),
        kernelPixel m true p = (m.transform p).divByW)
    ∧ (∀ m : Matrix4 ℚ,
        m.transform ⟨1, 1, 1, 1⟩ = ⟨1, 1, 1, 2⟩ →
        kernelPixel m true ⟨1, 1, 1, 1⟩ = ⟨1/2, 1/2, 1/2, 1⟩) := by
  constructor
  · intro m p; rfl
  · intro m h
    show (m.transform ⟨1, 1, 1, 1⟩).divByW = _
    rw [h]
    show Vector4.divByW ⟨1, 1, 1, 2⟩ = _
    simp only [Vector4.divByW]
    norm_num

/-- A matrix mapping (1,1,1,1) to (1,1,1,2), exercising the perspective
divide of claim C5. -/
def perspectiveTestMatrix : Matrix4 ℚ :=
  ⟨⟨1, 0, 0, 0⟩, ⟨0, 1, 0, 0⟩, ⟨0, 0, 1, 0⟩, ⟨0, 0, 0, 2⟩⟩

/-- Witness for C5 at the concrete matrix above. -/
theorem kernel_perspective_divide_witness :
    kernelPixel perspectiveTestMatrix true ⟨1, 1, 1, 1⟩
      = ⟨1/2, 1/2, 1/2, 1⟩ :=
  kernel_perspective_divide.2 perspectiveTestMatrix
    (by simp [perspectiveTestMatrix, Matrix4.transform])

/-- C6: with w_divide set, the kernel writes every pixel of the requested
span with the transformed sample divided componentwise by its w component,
with no branch guarding w = 0: the equation below holds for every input
row over Float, the carrier of the C++ code, including rows whose
transformed w is zero, so a zero w reaches Float division and yields
whatever IEEE-754 division yields — the pixel is neither skipped nor does
the kernel fail. -/
theorem pixel_engine_unguarded_divide
    (m : Matrix4 Float) (inRow : Int → Vector4 Float)
    (out : Int → Vector4 Float) (x r X : Int)
    (hx : x ≤ X) (hr : X < r) :
    pixel_engine false m true inRow x r out X
      = ((m.transform (inRow X)).divByW) := by
  show engineLoop m true inRow (r - x).toNat x out X = _
  rw [engineLoop_written m true inRow (r - x).toNat x out X hx (by omega)]
  rfl

/-- An input sample whose w channel is zero, exercising claim C6. -/
def wZeroSample : Vector4 Float := ⟨1, 1, 1, 0⟩

/-- Witness for C6: a one-pixel row whose transformed w is zero is still
written, with the unguarded division applied. -/
theorem pixel_engine_unguarded_divide_witness :
    pixel_engine false (Matrix4.identity) true (fun _ => wZeroSample) 0 1
        (fun _ => ⟨0, 0, 0, 0⟩) 0
      = ((Matrix4.identity.transform wZeroSample).divByW) :=
  pixel_engine_unguarded_divide Matrix4.identity (fun _ => wZeroSample)
    (fun _ => ⟨0, 0, 0, 0⟩) 0 1 0 (by decide) (by decide)

/-- C7: no pixel's result depends on any other pixel — for any two input
rows that agree at index X, and any two prior output-buffer contents, the
engine produces the same value at X. -/
theorem pixel_independence {α : Type} [Add α] [Mul α] [Div α]
    (m : Matrix4 α) (wdiv : Bool)
    (in1 in2 out1 out2 : Int → Vector4 α) (x r X : Int)
    (hx : x ≤ X) (hr : X < r) (hagree : in1 X = in2 X) :
    pixel_engine false m wdiv in1 x r out1 X
      = pixel_engine false m wdiv in2 x r out2 X := by
  show engineLoop m wdiv in1 (r - x).toNat x out1 X
    = engineLoop m wdiv in2 (r - x).toNat x out2 X
  rw [engineLoop_written m wdiv in1 (r - x).toNat x out1 X hx (by omega),
    engineLoop_written m wdiv in2 (r - x).toNat x out2 X hx (by omega),
    hagree]

/-- An input row agreeing with rowB only at index 0. -/
def rowA : Int → Vector4 ℚ :=
  fun X => if X = 0 then ⟨1, 2, 3, 4⟩ else ⟨9, 9, 9, 9⟩

/-- An input row agreeing with rowA only at index 0. -/
def rowB : Int → Vector4 ℚ :=
  fun X => if X = 0 then ⟨1, 2, 3, 4⟩ else ⟨7, 7, 7, 7⟩

/-- Witness for C7: two rows that differ everywhere except at index 0, and
different prior output buffers, give the same output at index 0. -/
theorem pixel_independence_witness :
    pixel_engine false (Matrix4.identity) true rowA 0 2
        (fun _ => (⟨0, 0, 0, 0⟩ : Vector4 ℚ)) 0
      = pixel_engine false (Matrix4.identity) true rowB 0 2
        (fun _ => (⟨5, 5, 5, 5⟩ : Vector4 ℚ)) 0 :=
  pixel_independence Matrix4.identity true rowA rowB
    (fun _ => ⟨0, 0, 0, 0⟩) (fun _ => ⟨5, 5, 5, 5⟩) 0 2 0
    (by decide) (by decide) (by decide)

/-- C8: whenever the matrixFrom knob reads Manual (value 0) at every
context, the bridge's provideValuesEnabled is false and both the current
and the legacy provideValues return the sixteen values of the identity
matrix, whatever provider is connected and whatever context is queried. -/
theorem manual_mode_bridge {α Ctx : Type}
    [Add α] [Mul α] [Div α] [OfNat α 0] [OfNat α 1]
    (sq : α → α) (s : C44State α Ctx)
    (hm : ∀ c, s.matrixFrom c = 0) (oc : Ctx) :
    provideValuesEnabled s = false
    ∧ provideValuesVec sq s oc = (Matrix4.identity (α := α)).toArray
    ∧ provideValuesLegacy sq s oc = (Matrix4.identity (α := α)).toArray := by
  refine ⟨?_, ?_, ?_⟩
  · simp [provideValuesEnabled, hm]
  · simp [provideValuesVec, hm]
  · simp [provideValuesLegacy, hm]

/-- A node in Manual mode with a camera nevertheless connected, exercising
claim C8. -/
def manualState : C44State ℚ Unit :=
  { matrixFrom := fun _ => 0
    matrixType := fun _ => 4
    currentCtx := ()
    input1 := InputOp.camera
      { world := ⟨⟨2, 0, 0, 3⟩, ⟨0, 2, 0, 4⟩, ⟨0, 0, 2, 5⟩, ⟨0, 0, 0, 1⟩⟩
        projection := ⟨⟨7, 0, 0, 0⟩, ⟨0, 7, 0, 0⟩, ⟨0, 0, 7, 0⟩, ⟨0, 0, 1, 0⟩⟩
        toFormat := fun _ => Matrix4.identity }
    inputFormat := ⟨640, 480⟩ }

/-- Witness for C8 at the concrete Manual-mode state above. -/
theorem manual_mode_bridge_witness :
    provideValuesEnabled manualState = false
    ∧ provideValuesVec (fun q => q) manualState ()
        = (Matrix4.identity (α := ℚ)).toArray
    ∧ provideValuesLegacy (fun q => q) manualState ()
        = (Matrix4.identity (α := ℚ)).toArray :=
  manual_mode_bridge (fun q => q) manualState (fun _ => rfl) ()

/-- C9: the legacy fixed-size and the modern buffer-based live-value
conventions agree — for every requested count at most 16, each written
buffer entry equals the corresponding entry of the 16-element vector
returned by the vector-based overload. -/
theorem provideValues_overloads_agree {α Ctx : Type}
    [Add α] [Mul α] [Div α] [OfNat α 0] [OfNat α 1]
    (sq : α → α) (s : C44State α Ctx) (oc : Ctx)
    (values : Nat → α) (nValues : Nat) (hn : nValues ≤ 16)
    (i : Nat) (hi : i < nValues) :
    provideValuesBuf sq s oc values nValues i
      = (provideValuesVec sq s oc).getD i 0 := by
  simp only [provideValuesBuf, provideValuesVec]
  rw [copyLoop_written _ (min nValues 16) 0 values i (by omega) (by omega)]

/-- A node in provider mode with an axis connected, exercising claims C9
and C10. -/
def bridgeState : C44State ℚ Unit :=
  { matrixFrom := fun _ => 1
    matrixType := fun _ => 0
    currentCtx := ()
    input1 := InputOp.axis
      { world := ⟨⟨1, 0, 0, 3⟩, ⟨0, 1, 0, 4⟩, ⟨0, 0, 1, 5⟩, ⟨0, 0, 0, 1⟩⟩ }
    inputFormat := ⟨640, 480⟩ }

/-- Witness for C9 at the concrete provider-mode state above, with a
10-entry buffer and index 3. -/
theorem provideValues_overloads_agree_witness :
    provideValuesBuf (fun q => q) bridgeState () (fun _ => 99) 10 3
      = (provideValuesVec (fun q => q) bridgeState ()).getD 3 0 :=
  provideValues_overloads_agree (fun q => q) bridgeState ()
    (fun _ => 99) 10 (by decide) 3 (by decide)

/-- C10: the buffer-based live-value query writes exactly the first
min(nValues, 16) buffer entries — each written entry carries the
corresponding matrix value (the entry the vector overload reports) — and
every entry at index at least min(nValues, 16) keeps its previous
contents, for every buffer size, including sizes above 16 and zero. -/
theorem provideValuesBuf_frame {α Ctx : Type}
    [Add α] [Mul α] [Div α] [OfNat α 0] [OfNat α 1]
    (sq : α → α) (s : C44State α Ctx) (oc : Ctx)
    (values : Nat → α) (nValues i : Nat) :
    (i < min nValues 16 →
      provideValuesBuf sq s oc values nValues i
        = (provideValuesVec sq s oc).getD i 0)
    ∧ (min nValues 16 ≤ i →
      provideValuesBuf sq s oc values nValues i = values i) := by
  constructor
  · intro h
    simp only [provideValuesBuf, provideValuesVec]
    rw [copyLoop_written _ (min nValues 16) 0 values i (by omega) (by omega)]
  · intro h
    simp only [provideValuesBuf]
    rw [copyLoop_untouched _ (min nValues 16) 0 values i (by omega)]

/-- Witness for C10: with a 20-entry request only the first 16 entries are
written; entry 3 receives the matrix value, entry 18 keeps its prior
contents. -/
theorem provideValuesBuf_frame_witness :
    (provideValuesBuf (fun q => q) bridgeState () (fun i => (i : ℚ)) 20 3
        = (provideValuesVec (fun q => q) bridgeState ()).getD 3 0)
    ∧ (provideValuesBuf (fun q => q) bridgeState () (fun i => (i : ℚ)) 20 18
        = ((18 : Nat) : ℚ)) :=
  ⟨(provideValuesBuf_frame (fun q => q) bridgeState ()
      (fun i => (i : ℚ)) 20 3).1 (by decide),
   (provideValuesBuf_frame (fun q => q) bridgeState ()
      (fun i => (i : ℚ)) 20 18).2 (by decide)⟩

end C44
